import Mathlib

/-!
Verification development for the vehiculos-scraper repository
(src/scraper/main.py).

The Python program crawls paginated vehicle-catalog pages, extracts
listing rows, deduplicates them by id within a run, optionally enriches a
quota-bounded prefix of the collected items with per-item detail fetches,
and writes the accumulated items to JSON files on disk.

This file gives a shallow embedding of that program:
pure Python functions become Lean functions, dicts become structures with
`Option` fields for possibly-absent keys, exceptions thrown by the
network collaborators become `Except` results, and the side effects that
matter to the stated properties (page fetches, detail fetches, sleeps,
filesystem writes) are reified as explicit values.

The reconciliation core described by the specification (fingerprints,
active/tombstone stores) has no counterpart in the source; it is modelled
from the specification text in a clearly marked section below.
-/

/-! ### Python string helpers used by the extraction code -/

/-- Python `sub in s` substring test (for a fixed nonempty needle),
via `String.splitOn`: the needle occurs iff splitting produces
more than one piece. -/
def strContains (s sub : String) : Bool :=
  (s.splitOn sub).length ≠ 1

/-- Python `str.lower` restricted to the characters this program feeds it:
ASCII letters plus the accented uppercase letters appearing in the
source constants. -/
def pyLowerChar (c : Char) : Char :=
  if c = 'Á' then 'á' else if c = 'É' then 'é' else if c = 'Í' then 'í'
  else if c = 'Ó' then 'ó' else if c = 'Ú' then 'ú' else if c = 'Ü' then 'ü'
  else if c = 'Ñ' then 'ñ' else c.toLower

def pyLower (s : String) : String := s.map pyLowerChar

/-- Python truthiness of an optional string value: `None` and the empty
string are falsy. -/
def pyTruthyStr : Option String → Bool
  | none => false
  | some s => s ≠ ""

/-- Python `a or b` on optional strings (`a` kept when truthy). -/
def pyOr (a b : Option String) : Option String :=
  match a with
  | some s => if s = "" then b else some s
  | none => b

/-! ### `parse_price` (src/scraper/main.py lines 63-72)

`PRICE_RE = (?i)\s*(US\$|RD\$|\$)\s*([0-9\.\,]+)` searched over the
cleaned text.  The embedding scans for the earliest position where a
currency token (case-insensitively `US$`, `RD$`, or a bare `$`) is
followed by optional whitespace and a nonempty run of `[0-9.,]`.
The Python code then converts the cleaned amount text with `float`;
the embedding carries the cleaned numeric literal itself, since no
claim depends on the floating-point value. -/

def isAmountChar (c : Char) : Bool := c.isDigit || c = '.' || c = ','

/-- Match one of the currency alternatives `US$`, `RD$`, `$` at the head
of the character list, returning the matched raw text and the rest. -/
def matchCurrency : List Char → Option (String × List Char)
  | a :: b :: c :: rest =>
    if (pyLowerChar a = 'u' && pyLowerChar b = 's' && c = '$')
        || (pyLowerChar a = 'r' && pyLowerChar b = 'd' && c = '$') then
      some (String.mk [a, b, c], rest)
    else if a = '$' then some ("$", b :: c :: rest)
    else none
  | a :: rest => if a = '$' then some ("$", rest) else none
  | [] => none

/-- Scan for the earliest full match of the price pattern, returning the
raw currency text and the matched amount text. -/
def priceScan : List Char → Option (String × String)
  | [] => none
  | c :: rest =>
    match matchCurrency (c :: rest) with
    | some (cur, after) =>
      let amt := (after.dropWhile Char.isWhitespace).takeWhile isAmountChar
      if amt.isEmpty then priceScan rest else some (cur, String.mk amt)
    | none => priceScan rest

/-- Embedding of `parse_price`.  Returns `(price_currency, amount text)`;
the amount text is the comma-stripped digits-and-dots literal the Python
code passes to `float`. -/
def parse_price (text : String) : Option String × Option String :=
  if text = "" then (none, none)
  else
    match priceScan ((text.replace " " " ").trim.toList) with
    | none => (none, none)
    | some (cur, amt) =>
      let currency := if strContains (String.map Char.toUpper cur) "US" then "USD" else "DOP"
      let cleaned := String.mk ((amt.toList.filter (fun c => c.isDigit || c = '.')))
      (some currency, some cleaned)

/-! ### `parse_fuel_and_condition` (src/scraper/main.py lines 74-91) -/

def FUEL_OPTIONS : List String :=
  ["Gasolina", "Diesel", "Gasoil/diesel", "Gas/GLP", "Eléctrico", "Híbrido"]

def COND_OPTIONS : List String := ["Nuevo", "Usado"]

/-- One iteration of the `for p in parts` loop of
`parse_fuel_and_condition`, updating the running `(fuel, condition)`. -/
def fuelStep (fc : Option String × Option String) (p : String) :
    Option String × Option String :=
  let pl := pyLower p
  let fuelHit := FUEL_OPTIONS.contains p
    || ["gasolina", "diesel", "elé", "electr", "híbr", "glp", "gasoil"].any
         (fun k => strContains pl k)
  let fuel :=
    if fuelHit then
      if pl.startsWith "gasoil" || strContains pl "diese" then some "Diesel"
      else if strContains pl "glp" then some "GLP"
      else if strContains pl "elé" || strContains pl "electr" then some "Eléctrico"
      else if strContains pl "híbr" then some "Híbrido"
      else if strContains pl "gasolina" then some "Gasolina"
      else fc.1
    else fc.1
  let condHit := COND_OPTIONS.contains p || strContains pl "usado" || strContains pl "nuevo"
  let condition :=
    if condHit then
      if strContains pl "usado" then some "Usado"
      else if strContains pl "nuevo" then some "Nuevo"
      else fc.2
    else fc.2
  (fuel, condition)

/-- Embedding of `parse_fuel_and_condition`. -/
def parse_fuel_and_condition (text : String) : Option String × Option String :=
  if text = "" then (none, none)
  else ((text.splitOn "-").map String.trim).foldl fuelStep (none, none)

/-! ### URL helpers (src/scraper/main.py lines 93-100, 184-191) -/

/-- Resolution of a relative reference against a `scheme://host` base
root.  `urllib.parse.urljoin` is only ever called here with such a root
as base; this covers the absolute-path and relative-path cases used by
the program (no claim depends on the exact URL text). -/
def urljoin (base_root rel : String) : String :=
  if rel.startsWith "/" then base_root ++ rel else base_root ++ "/" ++ rel

/-- Embedding of `normalize_url`. -/
def normalize_url (href : Option String) (base_root : String) : Option String :=
  match href with
  | none => none
  | some h =>
    if h = "" then none
    else if h.startsWith "http" then some h
    else some (urljoin base_root h)

/-- Split `scheme://netloc<rest>` into its three parts, `none` when the
text has no `://`. -/
def splitUrl (u : String) : Option (String × String × String) :=
  match u.splitOn "://" with
  | [] => none
  | [_] => none
  | scheme :: rest =>
    let s := String.intercalate "://" rest
    let netloc := String.mk (s.toList.takeWhile (fun c => c ≠ '/'))
    let tail := String.mk (s.toList.dropWhile (fun c => c ≠ '/'))
    some (scheme, netloc, tail)

/-- Embedding of `to_mobile`: force scheme `https` and replace the host
by `m.` plus the base host stripped of a leading `www.`.  (Query/fragment
splitting of `urlparse` is collapsed into the path remainder; no claim
depends on the URL text.) -/
def to_mobile (url base_url : String) : String :=
  if url = "" then url
  else
    let pn := match splitUrl url with
      | some (_, n, r) => (n, r)
      | none => ("", url)
    let bn := match splitUrl base_url with
      | some (_, n, _) => n
      | none => ""
    let netloc := if bn = "" then pn.1 else bn
    let root := if netloc.startsWith "www." then netloc.drop 4 else netloc
    "https://m." ++ root ++ pn.2

/-! ### Data model: collected items and detail payloads

A collected listing is a Python dict built in `parse_listings` and later
extended in-place by `scrape_source` (`scraped_at`, `source`) and
`enrich_with_details` (`detail`, `seller_name`, `primary_phone`, `city`,
`detail_error`).  Possibly-absent keys are `Option` fields. -/

/-- Output dict of `parse_detail_page` (src/scraper/main.py lines
441-451).  Its heuristic construction from HTML is the external
detail-extraction collaborator and is not embedded; the structure records
the shape consumed by `enrich_with_details`. -/
structure Detail where
  general : Option (List (String × String))
  accessories : Option (List String)
  description : Option String
  vendor_text : Option String
  vendor_name : Option String
  phones : Option (List String)
  primary_phone : Option String
  city : Option String
  images : Option (List String)
deriving DecidableEq, Repr

structure Item where
  id : String
  url : Option String
  title : Option String
  year : Option Nat
  fuel : Option String
  condition : Option String
  price_currency : Option String
  price_amount : Option String
  thumbnail : Option String
  photo_ids : List String
  badges : List String
  scraped_at : Option String
  source : Option String
  detail : Option Detail
  seller_name : Option String
  primary_phone : Option String
  city : Option String
  detail_error : Option String
deriving DecidableEq, Repr

/-- A blank item carrying only an id; used to build concrete inputs. -/
def sampleItem (id : String) : Item :=
  { id := id, url := none, title := none, year := none, fuel := none,
    condition := none, price_currency := none, price_amount := none,
    thumbnail := none, photo_ids := [], badges := [], scraped_at := none,
    source := none, detail := none, seller_name := none,
    primary_phone := none, city := none, detail_error := none }

/-! ### `parse_listings` (src/scraper/main.py lines 120-181) -/

/-- One `li` element as seen by the extraction code: the attributes and
pre-extracted texts of the sub-nodes the code selects.  `img_src` is the
`src` of `li.select_one("img.real") or li.select_one("img")` when that
element exists. -/
structure LiNode where
  data_id : Option String
  classes : List String
  href : Option String
  title1 : Option String
  year_text : Option String
  title2 : Option String
  price_text : Option String
  img_src : Option String
  data_photos : Option String
deriving DecidableEq, Repr

/-- The parsed HTML document as the listing extractor sees it:
the `#bigsearch-results-inner-results ul` container when present, and
otherwise the flat collection of all `li` elements (from which the
fallback selector `li[data-id]` keeps those carrying the attribute). -/
structure HtmlDoc where
  container : Option (List LiNode)
  all_li : List LiNode
deriving Repr

def selectNodes (doc : HtmlDoc) : List LiNode :=
  match doc.container with
  | some nodes => nodes
  | none => doc.all_li.filter (fun li => li.data_id.isSome)

/-- Insertion sort on strings (Python `sorted` over a set of class
names). -/
def insertSorted (s : String) : List String → List String
  | [] => [s]
  | t :: rest => if s ≤ t then s :: t :: rest else t :: insertSorted s rest

def sortStrings : List String → List String := List.foldr insertSorted []

/-- Collapse duplicates in a sorted list (set semantics of the Python
`set(...)` the badges are drawn from). -/
def dedupSorted : List String → List String
  | [] => []
  | [s] => [s]
  | s :: t :: rest =>
    if s = t then dedupSorted (t :: rest) else s :: dedupSorted (t :: rest)

/-- `badges = sorted([c for c in set(classes) - {"normal"} if c.startswith
("promo-") or c.startswith("featured-")])`. -/
def badgesOf (classes : List String) : List String :=
  dedupSorted (sortStrings (classes.filter
    (fun c => c ≠ "normal" && (c.startsWith "promo-" || c.startsWith "featured-"))))

/-- Year extraction: keep the digits of the `.year` text, convert when
nonempty. -/
def yearOf (ytext : Option String) : Option Nat :=
  match ytext with
  | none => none
  | some t =>
    let digits := String.mk (t.toList.filter Char.isDigit)
    if digits = "" then none else digits.toNat?

/-- `photo_ids = [x.strip() for x in dphotos.split(",") if x.strip()]`. -/
def photoIdsOf (dphotos : String) : List String :=
  ((dphotos.splitOn ",").map String.trim).filter (fun x => x ≠ "")

/-- The item dict built for one `li` with nonempty `data-id` value
`ad_id`. -/
def buildItem (li : LiNode) (ad_id : String) (base_root : String) : Item :=
  let pc := parse_price (li.price_text.getD "")
  let fc := parse_fuel_and_condition (li.title2.getD "")
  { id := ad_id,
    url := normalize_url li.href base_root,
    title := li.title1,
    year := yearOf li.year_text,
    fuel := fc.1,
    condition := fc.2,
    price_currency := pc.1,
    price_amount := pc.2,
    thumbnail := normalize_url li.img_src base_root,
    photo_ids := photoIdsOf (li.data_photos.getD ""),
    badges := badgesOf li.classes,
    scraped_at := none, source := none, detail := none,
    seller_name := none, primary_phone := none, city := none,
    detail_error := none }

/-- Embedding of `parse_listings`: iterate the selected `li` nodes,
skipping any whose `data-id` is absent or empty (`ad_id = li.get
("data-id") or ""; if not ad_id: continue`). -/
def parse_listings (doc : HtmlDoc) (base_root : String) : List Item :=
  (selectNodes doc).filterMap (fun li =>
    match li.data_id with
    | none => none
    | some ad_id => if ad_id = "" then none else some (buildItem li ad_id base_root))

/-! ### `enrich_with_details` (src/scraper/main.py lines 453-467)

The network fetch of the mobile detail page plus `parse_detail_page` is
the Detail Fetcher collaborator: a function from the fetched URL to
either a `Detail` payload or the text of the raised exception.  The
function returns the updated item together with the effects it
performed: whether a fetch was attempted and whether it slept. -/

structure EnrichEffects where
  fetched : Bool
  slept : Bool
deriving DecidableEq, Repr

/-- `(detail.get("phones") or [None])[0]`. -/
def headOptPhone : Option (List String) → Option String
  | some (p :: _) => some p
  | _ => none

def enrich_with_details (item : Item)
    (fetchDetail : String → Except String Detail) (base_url : String) :
    Item × EnrichEffects :=
  match item.url with
  | none => (item, ⟨false, false⟩)
  | some u =>
    if u = "" then (item, ⟨false, false⟩)
    else
      match fetchDetail (to_mobile u base_url) with
      | .ok d =>
        ({ item with
            detail := some d,
            seller_name := d.vendor_name,
            primary_phone := pyOr d.primary_phone (headOptPhone d.phones),
            city := d.city }, ⟨true, true⟩)
      | .error e =>
        ({ item with
            detail_error := match item.detail_error with
              | none => some e
              | some x => some x }, ⟨true, true⟩)

/-! ### Enrichment pass of `main` (src/scraper/main.py lines 561-578) -/

/-- `src_base = it.get("source") or base_url or
"https://www.supercarros.com/"`. -/
def srcBase (it : Item) (base_url : String) : String :=
  match pyOr it.source (pyOr (some base_url) (some "https://www.supercarros.com/")) with
  | some s => s
  | none => ""

/-- `all_items` if `max_details <= 0`, else `all_items[:max_details]`. -/
def items_to_enrich (all_items : List Item) (max_details : Int) : List Item :=
  if max_details ≤ 0 then all_items else all_items.take max_details.toNat

/-- The enrichment pass: `enrich_with_details` mutates the scheduled
prefix of `all_items` in place; the items beyond the quota are the
untouched suffix. -/
def runEnrichment (all_items : List Item) (max_details : Int)
    (f : String → Except String Detail) (base_url : String) : List Item :=
  (items_to_enrich all_items max_details).map
      (fun it => (enrich_with_details it f (srcBase it base_url)).1)
    ++ all_items.drop (items_to_enrich all_items max_details).length

/-! ### Crawling (src/scraper/main.py lines 470-533)

`scrape_source` drives pagination for one source.  The page transport
(`fetch` with retries, plus `parse_listings`) is a page oracle
`Nat → Option (List Item)`: `none` when the download raised after
exhausting retries, `some items` for the parsed rows of the page.
The shared mutable state is `seen_ids` and `all_items`. -/

structure CrawlState where
  seen : List String
  acc : List Item
deriving DecidableEq, Repr

/-- One item of the per-page dedup loop: skip when the id is falsy or
already seen, otherwise record it and append the item stamped with
`scraped_at` and `source`.  The returned flag says whether the item was
appended (counted in `nuevos`). -/
def dedupStep (src now : String) (st : CrawlState) (it : Item) : CrawlState × Bool :=
  if it.id = "" || st.seen.contains it.id then (st, false)
  else
    ({ seen := it.id :: st.seen,
       acc := st.acc ++ [{ it with scraped_at := some now, source := some src }] }, true)

/-- The `for it in items` loop of one page, returning the new state and
the `nuevos` count. -/
def processPage (src now : String) (st : CrawlState) (items : List Item) :
    CrawlState × Nat :=
  items.foldl
    (fun a it =>
      let r := dedupStep src now a.1 it
      (r.1, a.2 + (if r.2 then 1 else 0)))
    (st, 0)

inductive StopReason where
  | fuelOut | pageCap | fetchFail | emptyPage | zeroNewStreak
deriving DecidableEq, Repr

/-- `ZERO_NEW_LIMIT = 3` (hard constant in `scrape_source`). -/
def ZERO_NEW_LIMIT : Nat := 3

/-- The `while True` pagination loop of `scrape_source`, with explicit
fuel (the Python loop is unbounded when the page cap is nonpositive;
all theorems below stay within the fuel).  Returns the crawl state, the
page index at which the loop stopped, and why. -/
def scrapeAux (oracle : Nat → Option (List Item)) (src now : String) (cap : Int) :
    Nat → Nat → Nat → CrawlState → CrawlState × Nat × StopReason
  | 0, page, _, st => (st, page, .fuelOut)
  | fuel + 1, page, streak, st =>
    if cap > 0 ∧ (page : Int) ≥ cap then (st, page, .pageCap)
    else
      match oracle page with
      | none => (st, page, .fetchFail)
      | some items =>
        if items.isEmpty then (st, page, .emptyPage)
        else
          if (processPage src now st items).2 = 0 then
            if streak + 1 ≥ ZERO_NEW_LIMIT then
              ((processPage src now st items).1, page, .zeroNewStreak)
            else
              scrapeAux oracle src now cap fuel (page + 1) (streak + 1)
                (processPage src now st items).1
          else
            scrapeAux oracle src now cap fuel (page + 1) 0
              (processPage src now st items).1

/-- `scrape_source` for one source: run the loop from page 0 with fuel
`cap.toNat + 1`, which the page cap makes sufficient whenever the
configured cap is positive. -/
def scrape_source (oracle : Nat → Option (List Item)) (src now : String)
    (cap : Int) (st : CrawlState) : CrawlState × Nat × StopReason :=
  scrapeAux oracle src now cap (cap.toNat + 1) 0 0 st

/-- Number of page downloads attempted by a loop run that stopped at
`page` for reason `r`: pages `0 .. page-1` were fully processed and the
stopping iteration itself fetched unless it stopped on the cap check
(or on fuel, which fetches nothing either). -/
def fetchesOf (page : Nat) (r : StopReason) : Nat :=
  match r with
  | .pageCap => page
  | .fuelOut => page
  | _ => page + 1

/-- The `for src in sources` loop of `main`: thread the shared
`seen_ids`/`all_items` state through every source, accumulating the
count of attempted page fetches. -/
def runSources (oracle : String → Nat → Option (List Item)) (now : String)
    (cap : Int) : List String → CrawlState × Nat → CrawlState × Nat
  | [], a => a
  | src :: rest, a =>
    let r := scrape_source (oracle src) src now cap a.1
    runSources oracle now cap rest (r.1, a.2 + fetchesOf r.2.1 r.2.2)

/-! ### Persistence and `main` (src/scraper/main.py lines 535-585) -/

/-- Filesystem operations the program can perform.  `writeDirect` is
`pathlib.Path.write_text`: an in-place open-truncate-write of the whole
document.  `writeTemp` and `rename` are the operations an atomic
write-then-rename scheme would use; they appear in the vocabulary so
that their absence from the emitted trace is expressible. -/
inductive FsOp where
  | mkdirp (path : String)
  | writeDirect (path contents : String)
  | writeTemp (path contents : String)
  | rename (src dst : String)
deriving DecidableEq, Repr

/-- The write sequence at the end of `main`: make `data/`, write
`data/listings.json`, make `data/daily/`, write the daily snapshot.
Both documents are the same `json.dumps(all_items)` text in the
program. -/
def saveOps (doc dailyDoc today : String) : List FsOp :=
  [ .mkdirp "data",
    .writeDirect "data/listings.json" doc,
    .mkdirp "data/daily",
    .writeDirect ("data/daily/" ++ today ++ ".json") dailyDoc ]

/-- A filesystem: path to file contents. -/
def Fs : Type := String → Option String

def applyOp (fs : Fs) : FsOp → Fs
  | .mkdirp _ => fs
  | .writeDirect p c => fun q => if q = p then some c else fs q
  | .writeTemp p c => fun q => if q = p then some c else fs q
  | .rename s d => fun q => if q = d then fs s else if q = s then none else fs q

def runOps (fs : Fs) : List FsOp → Fs := List.foldl applyOp fs

/-- Interruption semantics of a non-atomic write: a `writeDirect` (or
`writeTemp`) cut off after `k` characters leaves the file holding a
prefix of the new contents; directory creation and rename are atomic
metadata operations. -/
def applyOpPartial (fs : Fs) (op : FsOp) (k : Nat) : Fs :=
  match op with
  | .writeDirect p c => fun q => if q = p then some (c.take k) else fs q
  | .writeTemp p c => fun q => if q = p then some (c.take k) else fs q
  | _ => fs

/-- Run the first `i` operations to completion, then interrupt the next
one after `k` characters. -/
def runInterrupted (fs : Fs) (ops : List FsOp) (i k : Nat) : Fs :=
  applyOpPartial (runOps fs (ops.take i)) ((ops.drop i).headD (.mkdirp "")) k

/-- The configuration fields that steer the modelled control flow
(`base_url`, `pages`, `details`, `max_details`).  The remaining keys of
`DEFAULT_CONFIG` (user agent, sleep intervals, ordering, page size) only
parameterize request URLs and delays and do not influence any modelled
decision. -/
structure Config where
  base_url : String
  pages : Int
  details : Bool
  max_details : Int
deriving DecidableEq, Repr

/-- The hard-coded extra catalog sources (src/scraper/main.py lines
29-40). -/
def EXTRA_CATALOG_URLS : List String :=
  [ "https://www.supercarros.com/carros/hatchback/",
    "https://www.supercarros.com/carros/sedan/",
    "https://www.supercarros.com/carros/jeepeta/",
    "https://www.supercarros.com/carros/camioneta/",
    "https://www.supercarros.com/carros/coupe-deportivo/",
    "https://www.supercarros.com/motores/",
    "https://www.supercarros.com/barcos/",
    "https://www.supercarros.com/v.pesados/camion/",
    "https://www.supercarros.com/v.pesados/autobus/",
    "https://www.supercarros.com/otros/" ]

/-- `sources = EXTRA_CATALOG_URLS if not base_url else [base_url] +
EXTRA_CATALOG_URLS`. -/
def computeSources (base_url : String) : List String :=
  if base_url = "" then EXTRA_CATALOG_URLS else base_url :: EXTRA_CATALOG_URLS

/-- Stands for `json.dumps(all_items, ...)`: a deterministic
serialization of the item list.  The claims below depend only on the
structure of the write operations, never on the document text. -/
def encodeItems (l : List Item) : String := reprStr l

structure RunResult where
  items : List Item
  fetches : Nat
  ops : List FsOp
deriving Repr

/-- Embedding of `main` (after config loading): build the source list,
crawl every source through the shared state, run the bounded enrichment
pass when enabled and items were collected, and emit the final write
sequence. -/
def runMain (cfg : Config) (oracle : String → Nat → Option (List Item))
    (df : String → Except String Detail) (now today : String) : RunResult :=
  let sources := computeSources cfg.base_url
  let sa := runSources oracle now cfg.pages sources (⟨[], []⟩, 0)
  let enriched :=
    if cfg.details ∧ sa.1.acc ≠ [] then
      runEnrichment sa.1.acc cfg.max_details df cfg.base_url
    else sa.1.acc
  { items := enriched,
    fetches := sa.2,
    ops := saveOps (encodeItems enriched) (encodeItems enriched) today }

/-! ### Reconciler, modelled from the spec

The specification describes a reconciliation core (Fingerprint Engine,
two persisted stores, `Reconciler.apply`) that has no counterpart in the
source under src/; the definitions in this section are modelled from the
specification text (sections 3 and 4.3) so that the claims about it can
be settled. -/

/-- Modelled from the spec: the mutable observable attributes of a
RawListing (spec section 3) — title, year, fuel, condition, price
currency and amount, thumbnail reference, photo-id list, badge set, and
source catalog reference.  The capture timestamp is deliberately outside
this set (spec section 4.2). -/
structure RawAttrs where
  title : Option String
  year : Option Nat
  fuel : Option String
  condition : Option String
  price_currency : Option String
  price_amount : Option String
  thumbnail : Option String
  photo_ids : List String
  badges : List String
  source : Option String
deriving DecidableEq, Repr

/-- Modelled from the spec: a Fingerprint is a deterministic digest of
the mutable attributes such that equal attribute values give equal
digests and any single differing attribute changes the digest — i.e. an
injective function of `RawAttrs`; the attribute tuple itself is the
canonical such digest. -/
abbrev Fingerprint : Type := RawAttrs

/-- Modelled from the spec: `fingerprint(listing)` over the declared
mutable-attribute subset. -/
def fingerprintOf (a : RawAttrs) : Fingerprint := a

/-- Modelled from the spec: one observation of an item in one crawl
cycle — a stable external id plus the mutable attributes. -/
structure RawListing where
  id : String
  attrs : RawAttrs
deriving DecidableEq, Repr

/-- Modelled from the spec: the persisted ListingRecord (spec section
3): latest attributes plus lifecycle metadata and the
enrichment-owned `detail` / `detail_error` payloads. -/
structure ListingRecord where
  attrs : RawAttrs
  first_seen : Nat
  last_seen : Nat
  active : Bool
  inactive_since : Option Nat
  reactivated_at : Option Nat
  fingerprint : Fingerprint
  detail : Option Detail
  detail_error : Option String
deriving DecidableEq, Repr

/-- A store maps ids to records (`none` = id absent from the store). -/
def StoreMap : Type := String → Option ListingRecord

/-- Modelled from the spec: the per-id case table of `Reconciler.apply`
(spec section 4.3) — new / unchanged / changed / reappear — returning
the resulting record and whether the id is marked changed. -/
def stepRecord (now : Nat) (A T : StoreMap) (r : RawListing) :
    ListingRecord × Bool :=
  match A r.id with
  | some rec =>
    if rec.fingerprint = fingerprintOf r.attrs then
      ({ rec with last_seen := now }, false)
    else
      ({ rec with attrs := r.attrs, fingerprint := fingerprintOf r.attrs,
                  last_seen := now }, true)
  | none =>
    match T r.id with
    | some rec =>
      ({ rec with active := true, reactivated_at := some now, last_seen := now },
       false)
    | none =>
      ({ attrs := r.attrs, first_seen := now, last_seen := now, active := true,
         inactive_since := none, reactivated_at := none,
         fingerprint := fingerprintOf r.attrs, detail := none,
         detail_error := none }, true)

/-- Modelled from the spec: `Reconciler.apply(batch, now, A, T)` returns
the new active store (exactly the batch ids, via the case table), the
new tombstone store (ids absent from the batch: records falling out of
the active store get `active := false` and `inactive_since := now`,
other tombstones are retained unchanged), and the changed-id set in
batch order. -/
def applyRecon (batch : List RawListing) (now : Nat) (A T : StoreMap) :
    StoreMap × StoreMap × List String :=
  ( fun id =>
      match batch.find? (fun r => r.id = id) with
      | some r => some (stepRecord now A T r).1
      | none => none,
    fun id =>
      match batch.find? (fun r => r.id = id) with
      | some _ => none
      | none =>
        match A id with
        | some rec => some { rec with active := false, inactive_since := some now }
        | none => T id,
    (batch.filter (fun r => (stepRecord now A T r).2)).map (fun r => r.id) )

/-- The everywhere-empty store. -/
def emptyStore : StoreMap := fun _ => none

/-! ### Concrete inputs used by the witness and counterexample theorems -/

def li0 : LiNode :=
  { data_id := some "7", classes := [], href := none, title1 := none,
    year_text := none, title2 := none, price_text := none, img_src := none,
    data_photos := none }

def doc0 : HtmlDoc := { container := some [li0], all_li := [] }

def fs0 : Fs := fun p => if p = "data/listings.json" then some "OLD" else none

def itemA : Item := { sampleItem "a" with url := some "https://x/a" }
def itemB : Item := { sampleItem "b" with url := some "https://x/b" }
def detail0 : Detail :=
  { general := none, accessories := none, description := none,
    vendor_text := none, vendor_name := none, phones := none,
    primary_phone := none, city := none, images := none }

def itemC : Item :=
  { sampleItem "c" with url := some "https://x/c", detail := some detail0 }

def itemStale : Item :=
  { sampleItem "s" with url := some "https://x/s", detail_error := some "old" }

def okFetcher : String → Except String Detail := fun _ => .ok detail0

def failFetcher : String → Except String Detail := fun s =>
  if s = to_mobile "https://x/b" "" then .error "down" else .ok detail0

def attrsBlank : RawAttrs :=
  { title := none, year := none, fuel := none, condition := none,
    price_currency := none, price_amount := none, thumbnail := none,
    photo_ids := [], badges := [], source := none }

def attrsOld : RawAttrs := { attrsBlank with title := some "old title" }

def attrsNew : RawAttrs := { attrsBlank with title := some "new title" }

def recTomb : ListingRecord :=
  { attrs := attrsOld, first_seen := 0, last_seen := 0, active := false,
    inactive_since := some 5, reactivated_at := none,
    fingerprint := fingerprintOf attrsOld, detail := none,
    detail_error := none }

def tombStore : StoreMap := fun id => if id = "1" then some recTomb else none

def batch1 : List RawListing := [{ id := "1", attrs := attrsNew }]

def traceAt (oracle : Nat → Option (List Item)) (src now : String)
    (st0 : CrawlState) : Nat → CrawlState × Nat
  | 0 => (st0, 0)
  | n + 1 =>
    match oracle n with
    | none => traceAt oracle src now st0 n
    | some items =>
      if items.isEmpty then traceAt oracle src now st0 n
      else
        ((processPage src now (traceAt oracle src now st0 n).1 items).1,
         if (processPage src now (traceAt oracle src now st0 n).1 items).2 = 0
         then (traceAt oracle src now st0 n).2 + 1 else 0)

def triggersAt (oracle : Nat → Option (List Item)) (src now : String)
    (cap : Int) (st0 : CrawlState) (n : Nat) : Option StopReason :=
  if cap > 0 ∧ (n : Int) ≥ cap then some .pageCap
  else
    match oracle n with
    | none => some .fetchFail
    | some items =>
      if items.isEmpty then some .emptyPage
      else
        if (processPage src now (traceAt oracle src now st0 n).1 items).2 = 0
            ∧ (traceAt oracle src now st0 n).2 + 1 ≥ ZERO_NEW_LIMIT
        then some .zeroNewStreak
        else none

/-- The dedup invariant carried through a run: accumulated ids are
duplicate-free and nonempty, and each id is registered in `seen_ids`. -/
def CrawlInv (st : CrawlState) : Prop :=
  (st.acc.map Item.id).Nodup
  ∧ ∀ it ∈ st.acc, it.id ≠ "" ∧ it.id ∈ st.seen

def itemAdup : Item := { sampleItem "a" with title := some "duplicate row" }

def oracle5 : String → Nat → Option (List Item) := fun _ n =>
  if n = 0 then some [itemA, itemAdup] else some []

def oracle6 : Nat → Option (List Item) := fun n =>
  if n = 0 then some [itemA] else some []

def oracle8 : String → Nat → Option (List Item) := fun src n =>
  if src = "a" then none
  else if n = 0 then some [itemB] else some []

def cfg0 : Config :=
  { base_url := "", pages := 1, details := false, max_details := 0 }

def oracle0 : String → Nat → Option (List Item) := fun _ _ => some []

/-! ## Theorems -/

/-! ### C9 — ids returned by the listing extractor are nonempty -/

/-- C9: every element of the list returned by `parse_listings` carries a
nonempty id — `li` nodes whose `data-id` attribute is absent or empty
are skipped by the `if not ad_id: continue` guard, so downstream
deduplication is always keyed on a nonempty string. -/
theorem parse_listings_ids_nonempty (doc : HtmlDoc) (base_root : String) :
    ∀ it ∈ parse_listings doc base_root, it.id ≠ "" := by
  intro it hit
  simp only [parse_listings, List.mem_filterMap] at hit
  obtain ⟨li, -, hf⟩ := hit
  cases h : li.data_id with
  | none => rw [h] at hf; cases hf
  | some ad =>
    rw [h] at hf
    by_cases had : ad = ""
    · simp [had] at hf
    · simp only [had, if_false, Option.some.injEq] at hf
      rw [← hf]
      simpa [buildItem] using had

/-- Witness for C9 at a concrete document holding one listing row. -/
theorem parse_listings_ids_nonempty_witness :
    (buildItem li0 "7" "https://www.supercarros.com").id ≠ "" :=
  parse_listings_ids_nonempty doc0 "https://www.supercarros.com"
    (buildItem li0 "7" "https://www.supercarros.com")
    (by simp [parse_listings, doc0, selectNodes, li0])

/-! ### C10 — enrichment is a no-op for items without a URL -/

/-- C10: when the item has no `url` key or a falsy one, the function
returns the item with every field unchanged, attempts no fetch and does
not sleep (the `if not url: return item` early return). -/
theorem enrich_noop_without_url (it : Item)
    (f : String → Except String Detail) (base : String)
    (h : it.url = none ∨ it.url = some "") :
    enrich_with_details it f base = (it, ⟨false, false⟩) := by
  rcases h with h | h <;> simp [enrich_with_details, h]

/-- Witness for C10 at a concrete url-less item. -/
theorem enrich_noop_without_url_witness :
    enrich_with_details (sampleItem "1") (fun _ => .error "boom") "b"
      = (sampleItem "1", ⟨false, false⟩) :=
  enrich_noop_without_url (sampleItem "1") (fun _ => .error "boom") "b"
    (Or.inl rfl)

/-! ### C2 — persistence is not atomic in the code

The claim says every save writes each store document to a temporary
location and renames it into place, so an interruption can never leave a
partially-written document.  The write sequence at the end of `main`
uses `pathlib.Path.write_text` directly on the destination paths:
no temporary file, no rename, and an interruption mid-write leaves a
proper prefix of the new document on disk. -/

/-- Counterexample to C2: with a prior snapshot `"OLD"` on disk and the
new document `"ab"`, the emitted write sequence contains a direct
in-place write and no rename at all, and interrupting the run inside
that write leaves `data/listings.json` holding `"a"` — neither the
prior snapshot nor the new one. -/
theorem save_not_atomic_counterexample :
    ((saveOps "ab" "ab" "d").all (fun op => match op with
        | .rename _ _ => false
        | .writeTemp _ _ => false
        | _ => true)) = true
  ∧ FsOp.writeDirect "data/listings.json" "ab" ∈ saveOps "ab" "ab" "d"
  ∧ runInterrupted fs0 (saveOps "ab" "ab" "d") 1 1 "data/listings.json" = some "a"
  ∧ fs0 "data/listings.json" = some "OLD"
  ∧ ("a" ≠ "OLD" ∧ "a" ≠ "ab") := by
  refine ⟨by decide, by decide, ?_, by decide, by decide, by decide⟩
  decide

/-- C2 amended: every save writes each store document directly in place
(`write_text`), with no temporary-location write and no rename anywhere
in the emitted sequence, and an interruption during the
`data/listings.json` write leaves the file holding exactly the first
`k` characters of the new document for the interruption cut `k`. -/
theorem save_writes_in_place (doc dailyDoc today : String) (fs : Fs) (k : Nat) :
    ((saveOps doc dailyDoc today).all (fun op => match op with
        | .rename _ _ => false
        | .writeTemp _ _ => false
        | _ => true)) = true
  ∧ FsOp.writeDirect "data/listings.json" doc ∈ saveOps doc dailyDoc today
  ∧ runInterrupted fs (saveOps doc dailyDoc today) 1 k "data/listings.json"
      = some (doc.take k) := by
  refine ⟨by simp [saveOps], by simp [saveOps], ?_⟩
  simp [runInterrupted, saveOps, runOps, applyOp, applyOpPartial]

/-! ### Enrichment pass indexing lemmas -/

lemma items_to_enrich_length_le (items : List Item) (q : Int) :
    (items_to_enrich items q).length ≤ items.length := by
  unfold items_to_enrich
  split
  · exact Nat.le_refl _
  · simp [List.length_take_le]

lemma runEnrichment_getElem_lt (items : List Item) (q : Int)
    (f : String → Except String Detail) (b : String) (i : Nat)
    (hi : i < (items_to_enrich items q).length) :
    (runEnrichment items q f b)[i]?
      = ((items_to_enrich items q)[i]?).map
          (fun x => (enrich_with_details x f (srcBase x b)).1) := by
  unfold runEnrichment
  rw [List.getElem?_append_left (by simpa using hi), List.getElem?_map]

lemma runEnrichment_getElem_ge (items : List Item) (q : Int)
    (f : String → Except String Detail) (b : String) (i : Nat)
    (hi : (items_to_enrich items q).length ≤ i) :
    (runEnrichment items q f b)[i]? = items[i]? := by
  unfold runEnrichment
  rw [List.getElem?_append_right (by simpa using hi), List.getElem?_drop]
  congr 1
  simp only [List.length_map]
  omega

lemma runEnrichment_length (items : List Item) (q : Int)
    (f : String → Except String Detail) (b : String) :
    (runEnrichment items q f b).length = items.length := by
  unfold runEnrichment
  have h := items_to_enrich_length_le items q
  simp only [List.length_append, List.length_map, List.length_drop]
  omega

/-! ### C3 — the enrichment quota -/

/-- C3: the enrichment pass of `main` invokes `enrich_with_details` on
every collected item when the quota is nonpositive, and on exactly the
first `quota` items in batch-arrival order when it is positive, leaving
every item beyond the quota exactly as it was (in particular its
`detail` value); and the per-item call attempts the network fetch
precisely when the item carries a truthy URL. -/
theorem enrichment_quota (items : List Item) (quota : Int)
    (f : String → Except String Detail) (base : String) :
    (runEnrichment items quota f base).length = items.length
  ∧ (quota ≤ 0 → ∀ i : Nat, (runEnrichment items quota f base)[i]?
        = (items[i]?).map (fun x => (enrich_with_details x f (srcBase x base)).1))
  ∧ (0 < quota → ∀ i : Nat,
        (i < quota.toNat → (runEnrichment items quota f base)[i]?
            = (items[i]?).map (fun x => (enrich_with_details x f (srcBase x base)).1))
      ∧ (quota.toNat ≤ i → (runEnrichment items quota f base)[i]? = items[i]?))
  ∧ (∀ x b, (enrich_with_details x f b).2.fetched = pyTruthyStr x.url) := by
  refine ⟨runEnrichment_length items quota f base, ?_, ?_, ?_⟩
  · intro hq i
    have he : items_to_enrich items quota = items := by
      unfold items_to_enrich
      exact if_pos hq
    by_cases hi : i < items.length
    · rw [runEnrichment_getElem_lt items quota f base i (by rw [he]; exact hi), he]
    · rw [runEnrichment_getElem_ge items quota f base i (by rw [he]; omega)]
      rw [List.getElem?_eq_none (by omega)]
      rfl
  · intro hq i
    have he : items_to_enrich items quota = items.take quota.toNat := by
      unfold items_to_enrich
      rw [if_neg (by omega)]
    constructor
    · intro hlt
      by_cases hi : i < items.length
      · rw [runEnrichment_getElem_lt items quota f base i
              (by rw [he]; simp; omega), he, List.getElem?_take_of_lt hlt]
      · rw [runEnrichment_getElem_ge items quota f base i
              (by have := items_to_enrich_length_le items quota; omega),
            List.getElem?_eq_none (by omega)]
        rfl
    · intro hge
      refine runEnrichment_getElem_ge items quota f base i ?_
      rw [he]
      simp only [List.length_take]
      omega
  · intro x b
    rcases hx : x.url with - | u
    · simp [enrich_with_details, hx, pyTruthyStr]
    · by_cases hu : u = ""
      · simp [enrich_with_details, hx, hu, pyTruthyStr]
      · rcases hf : f (to_mobile u b) with e | d <;>
          simp [enrich_with_details, hx, hu, hf, pyTruthyStr]

/-- Witness for C3: with the batch `[a, b, c]` and quota 2, the third
item is returned untouched (its prior `detail` kept) while the first is
the enrichment of `a`. -/
theorem enrichment_quota_witness :
    ((0 : Int) < 2)
  ∧ (runEnrichment [itemA, itemB, itemC] 2 (fun _ => .error "down") "")[2]?
      = some itemC
  ∧ (runEnrichment [itemA, itemB, itemC] 2 (fun _ => .error "down") "")[0]?
      = some (enrich_with_details itemA (fun _ => .error "down")
                (srcBase itemA "")).1 := by
  refine ⟨by norm_num, ?_, ?_⟩
  · have h := (enrichment_quota [itemA, itemB, itemC] 2
      (fun _ => .error "down") "").2.2.1 (by norm_num) 2
    rw [h.2 (by norm_num)]
    rfl
  · have h := (enrichment_quota [itemA, itemB, itemC] 2
      (fun _ => .error "down") "").2.2.1 (by norm_num) 0
    rw [h.1 (by norm_num)]
    rfl

/-! ### C4 — enrichment failure handling

The claim says a successful detail fetch clears `detail_error`.  The
code does not: on success it assigns `detail`, `seller_name`,
`primary_phone` and `city` but never removes `detail_error` (and on
failure it uses `setdefault`, preserving an existing error text). -/

/-- Counterexample to C4: an item carrying a prior `detail_error` whose
fetch succeeds receives the new `detail` payload, yet its `detail_error`
is still the old text instead of being cleared. -/
theorem enrich_success_keeps_stale_error_counterexample :
    okFetcher (to_mobile "https://x/s" "") = .ok detail0
  ∧ (enrich_with_details itemStale okFetcher "").1.detail = some detail0
  ∧ (enrich_with_details itemStale okFetcher "").1.detail_error = some "old"
  ∧ some "old" ≠ (none : Option String) := by
  refine ⟨rfl, ?_, ?_, by decide⟩ <;> rfl

/-- C4 amended: on a successful fetch the record gets the new `detail`
payload and the seller fields drawn from it, while a pre-existing
`detail_error` is left in place (not cleared); on a failed fetch the
prior `detail` is untouched and `detail_error` ends up set — to the
existing text when one was already present (`setdefault`), else to the
new error; and each scheduled item is processed independently, so one
item failing never prevents the attempt on any other scheduled item. -/
theorem enrichment_failure_isolation (it : Item) (u : String)
    (f : String → Except String Detail) (base : String)
    (hurl : it.url = some u) (hne : u ≠ "") :
    (∀ d, f (to_mobile u base) = .ok d →
        enrich_with_details it f base
          = ({ it with
               detail := some d, seller_name := d.vendor_name,
               primary_phone := pyOr d.primary_phone (headOptPhone d.phones),
               city := d.city }, ⟨true, true⟩))
  ∧ (∀ e, f (to_mobile u base) = .error e →
        (enrich_with_details it f base).1.detail = it.detail
      ∧ (enrich_with_details it f base).1.detail_error
          = some (it.detail_error.getD e)
      ∧ (enrich_with_details it f base).2 = ⟨true, true⟩)
  ∧ (∀ (items : List Item) (q : Int) (b : String) (i : Nat),
        i < (items_to_enrich items q).length →
        (runEnrichment items q f b)[i]?
          = ((items_to_enrich items q)[i]?).map
              (fun x => (enrich_with_details x f (srcBase x b)).1)) := by
  refine ⟨?_, ?_, fun items q b i hi => runEnrichment_getElem_lt items q f b i hi⟩
  · intro d hd
    simp [enrich_with_details, hurl, hne, hd]
  · intro e he
    rcases hde : it.detail_error with - | x <;>
      simp [enrich_with_details, hurl, hne, he, hde]

/-- Witness for C4 at concrete inputs: item `b` fails while a prior
error-free item would have its error set to the new text, and the
success case applies to `itemStale`. -/
theorem enrichment_failure_isolation_witness :
    (enrich_with_details itemB failFetcher "").1.detail = none
  ∧ (enrich_with_details itemB failFetcher "").1.detail_error = some "down"
  ∧ enrich_with_details itemStale okFetcher ""
      = ({ itemStale with
           detail := some detail0, seller_name := none,
           primary_phone := none, city := none }, ⟨true, true⟩) := by
  have hb := (enrichment_failure_isolation itemB "https://x/b" failFetcher ""
      rfl (by decide)).2.1 "down" (by simp [failFetcher])
  have hs := ((enrichment_failure_isolation itemStale "https://x/s" okFetcher ""
      rfl (by decide)).1 detail0 rfl)
  refine ⟨?_, ?_, ?_⟩
  · rw [hb.1]; rfl
  · rw [hb.2.1]; rfl
  · rw [hs]; rfl

/-! ### Reconciler lemmas -/

lemma find?_eq_self_of_nodup (batch : List RawListing)
    (hnodup : (batch.map RawListing.id).Nodup) (r : RawListing) (hr : r ∈ batch) :
    batch.find? (fun x => x.id = r.id) = some r := by
  induction batch with
  | nil => cases hr
  | cons b rest ih =>
    simp only [List.map_cons, List.nodup_cons] at hnodup
    rcases List.mem_cons.mp hr with h | h
    · subst h
      simp [List.find?_cons]
    · have hne : b.id ≠ r.id := by
        intro he
        exact hnodup.1 (he ▸ List.mem_map_of_mem RawListing.id h)
      rw [List.find?_cons_of_neg _ (by simpa using hne)]
      exact ih hnodup.2 h

lemma stepRecord_fingerprint (now : Nat) (A T : StoreMap) (r : RawListing)
    (hre : A r.id = none →
      ∀ rec, T r.id = some rec → rec.fingerprint = fingerprintOf r.attrs) :
    (stepRecord now A T r).1.fingerprint = fingerprintOf r.attrs := by
  unfold stepRecord
  cases hA : A r.id with
  | some rec =>
    by_cases hfp : rec.fingerprint = fingerprintOf r.attrs <;> simp [hfp]
  | none =>
    cases hT : T r.id with
    | some rec => simp [hre hA rec hT]
    | none => simp

lemma stepRecord_second (now : Nat) (A T : StoreMap) (r : RawListing)
    (rec1 : ListingRecord) (hA : A r.id = some rec1)
    (hfp : rec1.fingerprint = fingerprintOf r.attrs) :
    stepRecord now A T r = ({ rec1 with last_seen := now }, false) := by
  unfold stepRecord
  rw [hA]
  simp [hfp]

lemma applyRecon_active_lookup (batch : List RawListing) (now : Nat)
    (A T : StoreMap) (r : RawListing)
    (hfind : batch.find? (fun x => x.id = r.id) = some r) :
    (applyRecon batch now A T).1 r.id = some (stepRecord now A T r).1 := by
  simp only [applyRecon]
  rw [hfind]

lemma applyRecon_active_lookup_apply (batch : List RawListing) (now : Nat)
    (A T : StoreMap) (id : String) :
    (applyRecon batch now A T).1 id
      = match batch.find? (fun r => r.id = id) with
        | some r => some (stepRecord now A T r).1
        | none => none := rfl

lemma applyRecon_tomb_lookup (batch : List RawListing) (now : Nat)
    (A T : StoreMap) (id : String) :
    (applyRecon batch now A T).2.1 id
      = match batch.find? (fun r => r.id = id) with
        | some _ => none
        | none =>
          match A id with
          | some rec => some { rec with active := false, inactive_since := some now }
          | none => T id := rfl

lemma applyRecon_changed (batch : List RawListing) (now : Nat) (A T : StoreMap) :
    (applyRecon batch now A T).2.2
      = (batch.filter (fun r => (stepRecord now A T r).2)).map
          (fun r => r.id) := rfl

/-! ### C1 — reconciler idempotence (modelled from the spec)

In the modelled reconciler the claim fails as stated: the spec policy of
not overwriting attributes on reactivation (sections 3 and 4.3) means a
batch that reappears an id with changed attributes leaves the active
record holding the old fingerprint after the first apply, so the second
apply of the same batch classifies that id as changed — a nonempty
changed-set and an attribute overwrite beyond `last_seen`. -/

/-- Counterexample to C1 in the spec-modelled reconciler: id "1" sits in
the tombstone store with old attributes and reappears with new ones.
The first apply reactivates it without overwriting attributes; the
second apply of the very same batch then reports `["1"]` as changed and
overwrites the attributes — not a no-op beyond `last_seen`, and not an
empty changed-set. -/
theorem reconciler_idempotence_counterexample :
    (applyRecon batch1 7 (applyRecon batch1 6 emptyStore tombStore).1
        (applyRecon batch1 6 emptyStore tombStore).2.1).2.2 = ["1"]
  ∧ (((applyRecon batch1 6 emptyStore tombStore).1 "1").map
        ListingRecord.attrs = some attrsOld)
  ∧ ((applyRecon batch1 7 (applyRecon batch1 6 emptyStore tombStore).1
        (applyRecon batch1 6 emptyStore tombStore).2.1).1 "1").map
        ListingRecord.attrs = some attrsNew
  ∧ attrsOld ≠ attrsNew := by
  refine ⟨by decide, by decide, by decide, by decide⟩

/-- C1 amended: for every store pair and every batch whose ids are
duplicate-free and which reappears no tombstoned id with
fingerprint-changed attributes, the second apply of the same batch
returns an empty changed-set, leaves the tombstone store pointwise
identical, and changes every active record only in `last_seen`. -/
theorem reconciler_idempotence_amended (batch : List RawListing)
    (now now' : Nat) (A T : StoreMap)
    (hnodup : (batch.map RawListing.id).Nodup)
    (hre : ∀ r ∈ batch, A r.id = none →
        ∀ rec, T r.id = some rec → rec.fingerprint = fingerprintOf r.attrs) :
    (applyRecon batch now' (applyRecon batch now A T).1
        (applyRecon batch now A T).2.1).2.2 = []
  ∧ (∀ id, (applyRecon batch now' (applyRecon batch now A T).1
        (applyRecon batch now A T).2.1).2.1 id
      = (applyRecon batch now A T).2.1 id)
  ∧ (∀ id, (applyRecon batch now' (applyRecon batch now A T).1
        (applyRecon batch now A T).2.1).1 id
      = ((applyRecon batch now A T).1 id).map
          (fun rec => { rec with last_seen := now' })) := by
  have hstep : ∀ r ∈ batch,
      stepRecord now' (applyRecon batch now A T).1 (applyRecon batch now A T).2.1 r
        = ({ (stepRecord now A T r).1 with last_seen := now' }, false) := by
    intro r hr
    have hfind := find?_eq_self_of_nodup batch hnodup r hr
    have hlook := applyRecon_active_lookup batch now A T r hfind
    exact stepRecord_second now' _ _ r _ hlook
      (stepRecord_fingerprint now A T r (hre r hr))
  refine ⟨?_, ?_, ?_⟩
  · rw [applyRecon_changed, List.map_eq_nil_iff, List.filter_eq_nil_iff]
    intro r hr
    rw [hstep r hr]
    simp
  · intro id
    cases hfind : batch.find? (fun x => x.id = id) with
    | some r => simp only [applyRecon_tomb_lookup, hfind]
    | none =>
      simp only [applyRecon_tomb_lookup, applyRecon_active_lookup_apply, hfind]
  · intro id
    cases hfind : batch.find? (fun x => x.id = id) with
    | none =>
      simp only [applyRecon_active_lookup_apply, hfind]
      rfl
    | some r =>
      have hr : r ∈ batch := List.mem_of_find?_eq_some hfind
      simp only [applyRecon_active_lookup_apply, hfind, hstep r hr]
      rfl

/-- Witness for C1 amended: a fresh singleton batch applied twice to
empty stores — the second apply reports nothing changed and only bumps
`last_seen`. -/
theorem reconciler_idempotence_witness :
    ((applyRecon batch1 1 (applyRecon batch1 0 emptyStore emptyStore).1
        (applyRecon batch1 0 emptyStore emptyStore).2.1).2.2 = [])
  ∧ (applyRecon batch1 1 (applyRecon batch1 0 emptyStore emptyStore).1
        (applyRecon batch1 0 emptyStore emptyStore).2.1).1 "1"
      = ((applyRecon batch1 0 emptyStore emptyStore).1 "1").map
          (fun rec => { rec with last_seen := 1 }) := by
  have h := reconciler_idempotence_amended batch1 0 1 emptyStore emptyStore
    (by decide)
    (by intro r hr hA rec hT; simp [emptyStore] at hT)
  exact ⟨h.1, h.2.2 "1"⟩

/-! ### Crawl trace machinery

`traceAt oracle src now st0 n` is the crawl state and zero-new streak
just before page `n` is examined, assuming no stop fired earlier;
`triggersAt` evaluates, in the order the loop checks them, the stop
conditions at page `n`: page cap, download failure, empty page, and
`ZERO_NEW_LIMIT` consecutive non-empty pages with no unseen ids. -/

/-! ### Dedup lemmas -/

lemma dedupStep_skip (src now : String) (st : CrawlState) (it : Item)
    (h : it.id = "" ∨ it.id ∈ st.seen) :
    dedupStep src now st it = (st, false) := by
  have hcond : (decide (it.id = "") || st.seen.contains it.id) = true := by
    rcases h with h | h <;> simp [h]
  unfold dedupStep
  rw [if_pos hcond]

lemma dedupStep_add (src now : String) (st : CrawlState) (it : Item)
    (hid : it.id ≠ "") (hns : it.id ∉ st.seen) :
    dedupStep src now st it
      = ({ seen := it.id :: st.seen,
           acc := st.acc
             ++ [{ it with scraped_at := some now, source := some src }] },
         true) := by
  unfold dedupStep
  rw [if_neg (by simp [hid, hns])]

lemma dedupStep_false_eq (src now : String) (st : CrawlState) (it : Item)
    (h : (dedupStep src now st it).2 = false) :
    (dedupStep src now st it).1 = st := by
  by_cases hc : it.id = "" ∨ it.id ∈ st.seen
  · rw [dedupStep_skip src now st it hc]
  · push_neg at hc
    rw [dedupStep_add src now st it hc.1 hc.2] at h
    cases h

lemma dedupStep_seen_mono (src now : String) (st : CrawlState) (it : Item)
    (x : String) (hx : x ∈ st.seen) :
    x ∈ (dedupStep src now st it).1.seen := by
  by_cases hc : it.id = "" ∨ it.id ∈ st.seen
  · rw [dedupStep_skip src now st it hc]
    exact hx
  · push_neg at hc
    rw [dedupStep_add src now st it hc.1 hc.2]
    exact List.mem_cons_of_mem _ hx

lemma dedupStep_inv (src now : String) (st : CrawlState) (it : Item)
    (hinv : CrawlInv st) : CrawlInv (dedupStep src now st it).1 := by
  by_cases hc : it.id = "" ∨ it.id ∈ st.seen
  · rw [dedupStep_skip src now st it hc]
    exact hinv
  · push_neg at hc
    rw [dedupStep_add src now st it hc.1 hc.2]
    have hnotin : it.id ∉ st.acc.map Item.id := by
      intro hmem
      rcases List.mem_map.mp hmem with ⟨a, ha, hai⟩
      exact hc.2 (hai ▸ (hinv.2 a ha).2)
    constructor
    · rw [List.map_append]
      refine List.Nodup.append hinv.1 (List.nodup_singleton _) ?_
      intro x hx1 hx2
      simp only [List.map_cons, List.map_nil, List.mem_singleton] at hx2
      subst hx2
      exact hnotin hx1
    · intro a ha
      rcases List.mem_append.mp ha with h | h
      · exact ⟨(hinv.2 a h).1, List.mem_cons_of_mem _ (hinv.2 a h).2⟩
      · rcases List.mem_singleton.mp h with rfl
        exact ⟨hc.1, List.mem_cons_self _ _⟩

/-! ### Page-loop lemmas -/

lemma processPage_fold (src now : String) (items : List Item) :
    ∀ (st : CrawlState) (n : Nat),
      items.foldl (fun a it =>
          let r := dedupStep src now a.1 it
          (r.1, a.2 + (if r.2 then 1 else 0))) (st, n)
        = ((processPage src now st items).1, n + (processPage src now st items).2) := by
  induction items with
  | nil => intro st n; simp [processPage]
  | cons it rest ih =>
    intro st n
    unfold processPage
    simp only [List.foldl_cons]
    rw [ih, ih]
    simp only [Prod.mk.injEq]
    refine ⟨trivial, by omega⟩

lemma processPage_cons (src now : String) (st : CrawlState) (it : Item)
    (rest : List Item) :
    processPage src now st (it :: rest)
      = ((processPage src now (dedupStep src now st it).1 rest).1,
         (if (dedupStep src now st it).2 then 1 else 0)
           + (processPage src now (dedupStep src now st it).1 rest).2) := by
  have h1 : processPage src now st (it :: rest)
      = (it :: rest).foldl (fun a x =>
          let r := dedupStep src now a.1 x
          (r.1, a.2 + (if r.2 then 1 else 0))) (st, 0) := rfl
  rw [h1]
  simp only [List.foldl_cons]
  rw [processPage_fold]
  simp only [Prod.mk.injEq]
  refine ⟨trivial, by omega⟩

lemma processPage_inv (src now : String) (items : List Item) :
    ∀ st : CrawlState, CrawlInv st → CrawlInv (processPage src now st items).1 := by
  induction items with
  | nil => intro st h; simpa [processPage] using h
  | cons it rest ih =>
    intro st h
    rw [processPage_cons]
    exact ih _ (dedupStep_inv src now st it h)

lemma processPage_seen_mono (src now : String) (items : List Item) :
    ∀ (st : CrawlState) (x : String), x ∈ st.seen →
      x ∈ (processPage src now st items).1.seen := by
  induction items with
  | nil => intro st x h; simpa [processPage] using h
  | cons it rest ih =>
    intro st x h
    rw [processPage_cons]
    exact ih _ x (dedupStep_seen_mono src now st it x h)

lemma dedupStep_acc (src now : String) (st : CrawlState) (it : Item) :
    ∃ e, (dedupStep src now st it).1.acc = st.acc ++ e := by
  by_cases hc : it.id = "" ∨ it.id ∈ st.seen
  · rw [dedupStep_skip src now st it hc]
    exact ⟨[], by simp⟩
  · push_neg at hc
    rw [dedupStep_add src now st it hc.1 hc.2]
    exact ⟨_, rfl⟩

lemma processPage_acc (src now : String) (items : List Item) :
    ∀ st : CrawlState, ∃ e, (processPage src now st items).1.acc = st.acc ++ e := by
  induction items with
  | nil => intro st; exact ⟨[], by simp [processPage]⟩
  | cons it rest ih =>
    intro st
    rw [processPage_cons]
    obtain ⟨e1, he1⟩ := dedupStep_acc src now st it
    obtain ⟨e2, he2⟩ := ih (dedupStep src now st it).1
    exact ⟨e1 ++ e2, by rw [he2, he1, List.append_assoc]⟩

lemma processPage_zero (src now : String) (items : List Item) :
    ∀ st : CrawlState, (processPage src now st items).2 = 0 →
      (processPage src now st items).1 = st := by
  induction items with
  | nil => intro st _; simp [processPage]
  | cons it rest ih =>
    intro st h
    rw [processPage_cons] at h ⊢
    have hd : (dedupStep src now st it).2 = false := by
      by_contra hb
      rw [Bool.not_eq_false] at hb
      rw [hb] at h
      simp at h
    have hst := dedupStep_false_eq src now st it hd
    rw [hst] at h ⊢
    have h2 : (processPage src now st rest).2 = 0 := by
      rw [hd] at h
      simpa using h
    exact ih st h2

/-! ### Pagination loop lemmas -/

lemma scrapeAux_inv (oracle : Nat → Option (List Item)) (src now : String)
    (cap : Int) :
    ∀ (fuel page streak : Nat) (st : CrawlState), CrawlInv st →
      CrawlInv (scrapeAux oracle src now cap fuel page streak st).1 := by
  intro fuel
  induction fuel with
  | zero => intro page streak st h; exact h
  | succ k ih =>
    intro page streak st h
    rw [scrapeAux]
    split
    · exact h
    · split
      · exact h
      · split
        · exact h
        · split
          · split
            · exact processPage_inv src now _ st h
            · exact ih _ _ _ (processPage_inv src now _ st h)
          · exact ih _ _ _ (processPage_inv src now _ st h)

lemma scrapeAux_acc (oracle : Nat → Option (List Item)) (src now : String)
    (cap : Int) :
    ∀ (fuel page streak : Nat) (st : CrawlState),
      ∃ e, (scrapeAux oracle src now cap fuel page streak st).1.acc
        = st.acc ++ e := by
  intro fuel
  induction fuel with
  | zero => intro page streak st; exact ⟨[], by simp [scrapeAux]⟩
  | succ k ih =>
    intro page streak st
    rw [scrapeAux]
    split
    · exact ⟨[], by simp⟩
    · split
      · exact ⟨[], by simp⟩
      · split
        · exact ⟨[], by simp⟩
        · split
          · split
            · exact processPage_acc src now _ st
            · obtain ⟨e1, he1⟩ := processPage_acc src now _ st
              obtain ⟨e2, he2⟩ := ih (page + 1) (streak + 1)
                (processPage src now st _).1
              exact ⟨e1 ++ e2, by rw [he2, he1, List.append_assoc]⟩
          · obtain ⟨e1, he1⟩ := processPage_acc src now _ st
            obtain ⟨e2, he2⟩ := ih (page + 1) 0 (processPage src now st _).1
            exact ⟨e1 ++ e2, by rw [he2, he1, List.append_assoc]⟩

lemma scrapeAux_page_ge (oracle : Nat → Option (List Item)) (src now : String)
    (cap : Int) :
    ∀ (fuel page streak : Nat) (st : CrawlState),
      page ≤ (scrapeAux oracle src now cap fuel page streak st).2.1 := by
  intro fuel
  induction fuel with
  | zero => intro page streak st; exact Nat.le_refl _
  | succ k ih =>
    intro page streak st
    rw [scrapeAux]
    split
    · exact Nat.le_refl _
    · split
      · exact Nat.le_refl _
      · split
        · exact Nat.le_refl _
        · split
          · split
            · exact Nat.le_refl _
            · exact Nat.le_of_succ_le (ih (page + 1) (streak + 1) _)
          · exact Nat.le_of_succ_le (ih (page + 1) 0 _)

lemma scrapeAux_fetchFail (oracle : Nat → Option (List Item)) (src now : String)
    (cap : Int) :
    ∀ (fuel page streak : Nat) (st : CrawlState),
      (scrapeAux oracle src now cap fuel page streak st).2.2 = .fetchFail →
      oracle (scrapeAux oracle src now cap fuel page streak st).2.1 = none := by
  intro fuel
  induction fuel with
  | zero => intro page streak st h; cases h
  | succ k ih =>
    intro page streak st
    rw [scrapeAux]
    split
    · intro h; cases h
    · split
      · intro _
        assumption
      · split
        · intro h; cases h
        · split
          · split
            · intro h; cases h
            · exact ih (page + 1) (streak + 1) _
          · exact ih (page + 1) 0 _

lemma scrapeAux_char (oracle : Nat → Option (List Item)) (src now : String)
    (cap : Int) (st0 : CrawlState) (p : Nat)
    (htrig : (triggersAt oracle src now cap st0 p).isSome)
    (hmin : ∀ q, q < p → triggersAt oracle src now cap st0 q = none) :
    ∀ (fuel n : Nat), n ≤ p → p - n < fuel →
      scrapeAux oracle src now cap fuel n (traceAt oracle src now st0 n).2
          (traceAt oracle src now st0 n).1
        = ((traceAt oracle src now st0 p).1, p,
           (triggersAt oracle src now cap st0 p).getD .fuelOut) := by
  intro fuel
  induction fuel with
  | zero => intro n hn hf; omega
  | succ k ih =>
    intro n hn hf
    by_cases hnp : n = p
    · subst hnp
      rw [scrapeAux]
      by_cases hc : cap > 0 ∧ (n : Int) ≥ cap
      · have ht : triggersAt oracle src now cap st0 n = some .pageCap := by
          unfold triggersAt
          rw [if_pos hc]
        rw [if_pos hc, ht]
        rfl
      · rw [if_neg hc]
        cases ho : oracle n with
        | none =>
          have ht : triggersAt oracle src now cap st0 n = some .fetchFail := by
            unfold triggersAt
            rw [if_neg hc, ho]
          rw [ht]
          rfl
        | some items =>
          by_cases he : items.isEmpty
          · have ht : triggersAt oracle src now cap st0 n = some .emptyPage := by
              unfold triggersAt
              rw [if_neg hc, ho]
              simp only [he, if_true]
            rw [ht]
            simp only [he, if_true]
            rfl
          · by_cases hz :
              (processPage src now (traceAt oracle src now st0 n).1 items).2 = 0
            · by_cases hs : (traceAt oracle src now st0 n).2 + 1 ≥ ZERO_NEW_LIMIT
              · have ht : triggersAt oracle src now cap st0 n
                    = some .zeroNewStreak := by
                  unfold triggersAt
                  rw [if_neg hc, ho]
                  simp only [he, if_false, Bool.false_eq_true]
                  rw [if_pos ⟨hz, hs⟩]
                rw [ht]
                simp only [he, if_false, Bool.false_eq_true, hz, if_pos hs]
                simp only [if_true]
                rw [processPage_zero src now items _ hz]
                rfl
              · exfalso
                have ht : triggersAt oracle src now cap st0 n = none := by
                  unfold triggersAt
                  rw [if_neg hc, ho]
                  simp only [he, if_false, Bool.false_eq_true]
                  rw [if_neg (fun hand => hs hand.2)]
                rw [ht] at htrig
                cases htrig
            · exfalso
              have ht : triggersAt oracle src now cap st0 n = none := by
                unfold triggersAt
                rw [if_neg hc, ho]
                simp only [he, if_false, Bool.false_eq_true]
                rw [if_neg (fun hand => hz hand.1)]
              rw [ht] at htrig
              cases htrig
    · have hlt : n < p := Nat.lt_of_le_of_ne hn hnp
      have hq := hmin n hlt
      rw [scrapeAux]
      by_cases hc : cap > 0 ∧ (n : Int) ≥ cap
      · exfalso
        unfold triggersAt at hq
        rw [if_pos hc] at hq
        cases hq
      · rw [if_neg hc]
        unfold triggersAt at hq
        rw [if_neg hc] at hq
        cases ho : oracle n with
        | none =>
          rw [ho] at hq
          cases hq
        | some items =>
          rw [ho] at hq
          by_cases he : items.isEmpty
          · simp only [he, if_true] at hq
            cases hq
          · simp only [he, if_false, Bool.false_eq_true] at hq
            simp only [ho, he, if_false, Bool.false_eq_true]
            by_cases hz :
              (processPage src now (traceAt oracle src now st0 n).1 items).2 = 0
            · have hs : ¬ (traceAt oracle src now st0 n).2 + 1 ≥ ZERO_NEW_LIMIT := by
                intro hs
                rw [if_pos ⟨hz, hs⟩] at hq
                cases hq
              have htr : traceAt oracle src now st0 (n + 1)
                  = ((processPage src now (traceAt oracle src now st0 n).1
                        items).1,
                     (traceAt oracle src now st0 n).2 + 1) := by
                rw [traceAt, ho]
                simp only [he, if_false, Bool.false_eq_true, hz, if_true]
              simp only [hz, if_true, if_neg hs]
              have h1 : (processPage src now (traceAt oracle src now st0 n).1
                  items).1 = (traceAt oracle src now st0 (n + 1)).1 := by
                rw [htr]
              have h2 : (traceAt oracle src now st0 n).2 + 1
                  = (traceAt oracle src now st0 (n + 1)).2 := by
                rw [htr]
              rw [h1, h2]
              exact ih (n + 1) (by omega) (by omega)
            · have htr : traceAt oracle src now st0 (n + 1)
                  = ((processPage src now (traceAt oracle src now st0 n).1
                        items).1, 0) := by
                rw [traceAt, ho]
                simp only [he, if_false, Bool.false_eq_true, hz, if_false]
              simp only [hz, if_false]
              have h1 : (processPage src now (traceAt oracle src now st0 n).1
                  items).1 = (traceAt oracle src now st0 (n + 1)).1 := by
                rw [htr]
              have h2 : (0 : Nat) = (traceAt oracle src now st0 (n + 1)).2 := by
                rw [htr]
              rw [h1, h2]
              exact ih (n + 1) (by omega) (by omega)

lemma runSources_inv (oracle : String → Nat → Option (List Item)) (now : String)
    (cap : Int) :
    ∀ (sources : List String) (a : CrawlState × Nat), CrawlInv a.1 →
      CrawlInv (runSources oracle now cap sources a).1 := by
  intro sources
  induction sources with
  | nil => intro a h; exact h
  | cons src rest ih =>
    intro a h
    rw [runSources]
    exact ih _ (scrapeAux_inv (oracle src) src now cap (cap.toNat + 1) 0 0 a.1 h)

lemma runSources_append (oracle : String → Nat → Option (List Item))
    (now : String) (cap : Int) (l1 l2 : List String) :
    ∀ a, runSources oracle now cap (l1 ++ l2) a
      = runSources oracle now cap l2 (runSources oracle now cap l1 a) := by
  induction l1 with
  | nil => intro a; rfl
  | cons s rest ih =>
    intro a
    rw [List.cons_append, runSources, runSources]
    exact ih _

/-! ### C5 — within-run deduplication by id -/

/-- C5: over any sequence of sources and pages, the accumulated batch
contains at most one item per id (its id list is duplicate-free, each id
nonempty), and the per-item step never appends an item whose id was
already seen this run (or is falsy) — so only the first-encountered
listing of an id reaches the batch. -/
theorem crawl_batch_dedup (oracle : String → Nat → Option (List Item))
    (now : String) (cap : Int) (sources : List String) :
    (((runSources oracle now cap sources (⟨[], []⟩, 0)).1.acc.map Item.id).Nodup
      ∧ ∀ it ∈ (runSources oracle now cap sources (⟨[], []⟩, 0)).1.acc, it.id ≠ "")
  ∧ (∀ (src now2 : String) (st : CrawlState) (it : Item),
      it.id = "" ∨ it.id ∈ st.seen → dedupStep src now2 st it = (st, false)) := by
  have hinv : CrawlInv (runSources oracle now cap sources (⟨[], []⟩, 0)).1 :=
    runSources_inv oracle now cap sources (⟨[], []⟩, 0)
      ⟨by simp, by intro it hit; cases hit⟩
  exact ⟨⟨hinv.1, fun it hit => (hinv.2 it hit).1⟩,
    fun src now2 st it h => dedupStep_skip src now2 st it h⟩

/-- Witness for C5: a source whose first page repeats id "a"; the
theorem applies, and the skip fact fires on a state that has already
seen "a". -/
theorem crawl_batch_dedup_witness :
    ((runSources oracle5 "n" 2 ["s"] (⟨[], []⟩, 0)).1.acc.map Item.id).Nodup
  ∧ dedupStep "s" "n" ⟨["a"], []⟩ itemAdup = (⟨["a"], []⟩, false) :=
  ⟨(crawl_batch_dedup oracle5 "n" 2 ["s"]).1.1,
   (crawl_batch_dedup oracle5 "n" 2 ["s"]).2 "s" "n" ⟨["a"], []⟩ itemAdup
     (Or.inr (by decide))⟩

/-! ### C6 — the pagination stopping heuristic -/

/-- C6: with a positive page cap, `scrape_source` stops exactly at the
first page where a stop condition fires — in check order: the page cap,
a failed download, a page with zero parsed rows, or `ZERO_NEW_LIMIT = 3`
consecutive non-empty pages contributing no unseen ids — returning the
state accumulated before that page, that page index, and that very
reason.  (`ZERO_NEW_LIMIT` is a hard constant of `scrape_source`, not a
configuration key.) -/
theorem crawler_stops_at_first_trigger (oracle : Nat → Option (List Item))
    (src now : String) (cap : Int) (st0 : CrawlState) (p : Nat)
    (hcap : 0 < cap)
    (htrig : (triggersAt oracle src now cap st0 p).isSome)
    (hmin : ∀ q, q < p → triggersAt oracle src now cap st0 q = none) :
    scrape_source oracle src now cap st0
      = ((traceAt oracle src now st0 p).1, p,
         (triggersAt oracle src now cap st0 p).getD .fuelOut) := by
  have hcapn : (triggersAt oracle src now cap st0 cap.toNat).isSome := by
    unfold triggersAt
    rw [if_pos ⟨hcap, by omega⟩]
    rfl
  have hple : p ≤ cap.toNat := by
    by_contra hgt
    push_neg at hgt
    rw [hmin cap.toNat hgt] at hcapn
    cases hcapn
  have h := scrapeAux_char oracle src now cap st0 p htrig hmin (cap.toNat + 1) 0
    (by omega) (by omega)
  simpa [scrape_source, traceAt] using h

/-- Witness for C6: page 0 is non-empty and contributes a new id, page 1
parses to zero rows — the loop stops at page 1 with the empty-page
reason. -/
theorem crawler_stops_at_first_trigger_witness :
    scrape_source oracle6 "s" "n" 5 ⟨[], []⟩
      = ((traceAt oracle6 "s" "n" ⟨[], []⟩ 1).1, 1, StopReason.emptyPage) := by
  have h := crawler_stops_at_first_trigger oracle6 "s" "n" 5 ⟨[], []⟩ 1
    (by norm_num) (by decide)
    (by
      intro q hq
      have hq0 : q = 0 := by omega
      subst hq0
      decide)
  rw [h]
  decide

/-! ### C8 — source-level failure isolation -/

/-- C8: when the scrape of source `s` (run after the sources in `pre`)
ends with a download failure, the failure aborts only the pagination of
`s` — the page at which it stopped is indeed one whose download returned
nothing, the items `s` had already contributed are kept (its final
accumulator extends the prior one), and the run continues with every
remaining source exactly as the fold prescribes. -/
theorem source_failure_isolation (oracle : String → Nat → Option (List Item))
    (now : String) (cap : Int) (pre post : List String) (s : String)
    (a0 : CrawlState × Nat)
    (hfail : (scrape_source (oracle s) s now cap
        (runSources oracle now cap pre a0).1).2.2 = .fetchFail) :
    runSources oracle now cap (pre ++ s :: post) a0
      = runSources oracle now cap post
          ((scrape_source (oracle s) s now cap
              (runSources oracle now cap pre a0).1).1,
           (runSources oracle now cap pre a0).2
             + fetchesOf
                 (scrape_source (oracle s) s now cap
                   (runSources oracle now cap pre a0).1).2.1
                 (scrape_source (oracle s) s now cap
                   (runSources oracle now cap pre a0).1).2.2)
  ∧ oracle s (scrape_source (oracle s) s now cap
        (runSources oracle now cap pre a0).1).2.1 = none
  ∧ ∃ extra, (scrape_source (oracle s) s now cap
        (runSources oracle now cap pre a0).1).1.acc
      = (runSources oracle now cap pre a0).1.acc ++ extra := by
  refine ⟨?_, ?_, ?_⟩
  · rw [runSources_append, runSources]
  · exact scrapeAux_fetchFail (oracle s) s now cap (cap.toNat + 1) 0 0
      (runSources oracle now cap pre a0).1 hfail
  · exact scrapeAux_acc (oracle s) s now cap (cap.toNat + 1) 0 0
      (runSources oracle now cap pre a0).1

/-- Witness for C8: source "a" fails its very first download while
source "b" follows; the theorem applies and places the failure at a page
whose download returned nothing. -/
theorem source_failure_isolation_witness :
    oracle8 "a" (scrape_source (oracle8 "a") "a" "n" 2
        (runSources oracle8 "n" 2 [] (⟨[], []⟩, 0)).1).2.1 = none :=
  (source_failure_isolation oracle8 "n" 2 [] ["b"] "a" (⟨[], []⟩, 0)
    (by decide)).2.1

/-! ### C7 — there is no fatal missing-source configuration

The claim says a configuration with no source makes the program exit
with a non-zero status before any network activity.  The code has no
such path: when `base_url` is empty (the user configured no source) it
falls back to the ten hard-coded extra catalog URLs and runs the full
cycle, fetching pages and writing output. -/

lemma fetchesOf_ge (page : Nat) (r : StopReason) : page ≤ fetchesOf page r := by
  cases r <;> simp [fetchesOf]

lemma scrape_source_fetches_pos (oracle : Nat → Option (List Item))
    (src now : String) (cap : Int) (st : CrawlState) :
    1 ≤ fetchesOf (scrape_source oracle src now cap st).2.1
        (scrape_source oracle src now cap st).2.2 := by
  unfold scrape_source
  rw [scrapeAux]
  by_cases hc : cap > 0 ∧ ((0 : Nat) : Int) ≥ cap
  · exfalso
    omega
  · rw [if_neg hc]
    cases ho : oracle 0 with
    | none => simp [fetchesOf]
    | some items =>
      simp only [ho]
      by_cases he : items.isEmpty
      · simp [he, fetchesOf]
      · simp only [he, if_false, Bool.false_eq_true]
        by_cases hz : (processPage src now st items).2 = 0
        · simp only [hz, if_true]
          rw [if_neg (by simp [ZERO_NEW_LIMIT])]
          have h1 := scrapeAux_page_ge oracle src now cap cap.toNat (0 + 1) (0 + 1)
            (processPage src now st items).1
          have h2 := fetchesOf_ge
            (scrapeAux oracle src now cap cap.toNat (0 + 1) (0 + 1)
              (processPage src now st items).1).2.1
            (scrapeAux oracle src now cap cap.toNat (0 + 1) (0 + 1)
              (processPage src now st items).1).2.2
          omega
        · simp only [hz, if_false]
          have h1 := scrapeAux_page_ge oracle src now cap cap.toNat (0 + 1) 0
            (processPage src now st items).1
          have h2 := fetchesOf_ge
            (scrapeAux oracle src now cap cap.toNat (0 + 1) 0
              (processPage src now st items).1).2.1
            (scrapeAux oracle src now cap cap.toNat (0 + 1) 0
              (processPage src now st items).1).2.2
          omega

lemma runSources_fetches (oracle : String → Nat → Option (List Item))
    (now : String) (cap : Int) :
    ∀ (srcs : List String) (a : CrawlState × Nat),
      a.2 + srcs.length ≤ (runSources oracle now cap srcs a).2 := by
  intro srcs
  induction srcs with
  | nil => intro a; simp [runSources]
  | cons s rest ih =>
    intro a
    rw [runSources]
    have h1 := scrape_source_fetches_pos (oracle s) s now cap a.1
    have h2 := ih ((scrape_source (oracle s) s now cap a.1).1,
      a.2 + fetchesOf (scrape_source (oracle s) s now cap a.1).2.1
        (scrape_source (oracle s) s now cap a.1).2.2)
    simp only [List.length_cons]
    omega

/-- Counterexample to C7: with no configured source (`base_url` empty)
the run does not exit — it crawls the ten hard-coded extra catalog
sources (ten page downloads are attempted) and still writes its output
files. -/
theorem no_source_config_not_fatal_counterexample :
    cfg0.base_url = ""
  ∧ computeSources cfg0.base_url = EXTRA_CATALOG_URLS
  ∧ (computeSources cfg0.base_url).length = 10
  ∧ (runMain cfg0 oracle0 (fun _ => .error "e") "now" "2026-10-12").fetches = 10
  ∧ (runMain cfg0 oracle0 (fun _ => .error "e") "now" "2026-10-12").ops ≠ [] := by
  refine ⟨rfl, by decide, by decide, by decide, by decide⟩

/-- C7 amended: the computed source list is never empty (the hard-coded
extra catalogs guarantee at least ten entries), the run attempts at
least one page download per source, and it always emits the write of
`data/listings.json` with the serialized final items — the program never
aborts for missing configuration. -/
theorem sources_never_empty_run_writes (cfg : Config)
    (oracle : String → Nat → Option (List Item))
    (df : String → Except String Detail) (now today : String) :
    computeSources cfg.base_url ≠ []
  ∧ (computeSources cfg.base_url).length
      ≤ (runMain cfg oracle df now today).fetches
  ∧ FsOp.writeDirect "data/listings.json"
        (encodeItems (runMain cfg oracle df now today).items)
      ∈ (runMain cfg oracle df now today).ops := by
  refine ⟨?_, ?_, ?_⟩
  · unfold computeSources
    split <;> simp [EXTRA_CATALOG_URLS]
  · have h := runSources_fetches oracle now cfg.pages
      (computeSources cfg.base_url) (⟨[], []⟩, 0)
    simpa [runMain] using h
  · simp [runMain, saveOps]
